import Mathlib

/-!
Verification of the transaction encoding/signing core of the
`vechain-sdk-js` repository: a shallow embedding in Lean 4 of
`packages/core/src/transaction/transaction.ts` and
`packages/core/src/encoding/rlp/helpers/compactfixedhexblobkind.ts`,
with theorems settling the specification's claims about them.

Byte buffers (`Buffer`) are embedded as `List Nat` (each entry a byte value),
JS strings as Lean `String`, optional/possibly-`undefined` values as `Option`,
and thrown errors as `Except`.  The injected crypto capability (blake2b256,
secp256k1 recovery, address derivation) and the generic RLP profile encoders
are external to this core and are taken as parameters, so every theorem below
holds for an arbitrary instantiation of them.
-/

namespace VechainSdk

/-! ## Hex string utilities -/

/-- Value of one hexadecimal digit character (0 for non-hex characters;
all guarded call sites have already checked the character is a hex digit). -/
def hexDigitVal (c : Char) : Nat :=
  if '0' ≤ c ∧ c ≤ '9' then c.toNat - 48
  else if 'a' ≤ c ∧ c ≤ 'f' then c.toNat - 87
  else if 'A' ≤ c ∧ c ≤ 'F' then c.toNat - 55
  else 0

/-- Hex digit character for a value `0..15` (lowercase, as the repository's
hex rendering produces). -/
def hexChar (n : Nat) : Char :=
  if n < 10 then Char.ofNat (48 + n) else Char.ofNat (87 + n)

/-- The two hex characters of one byte. -/
def byteToHexChars (b : Nat) : List Char :=
  [hexChar (b / 16), hexChar (b % 16)]

/-- Render a byte buffer as a `0x`-prefixed lowercase hex string
(the repository's `toString('hex')` convention with the `0x` prefix). -/
def bytesToHex (bs : List Nat) : String :=
  ⟨'0' :: 'x' :: (bs.map byteToHexChars).flatten⟩

/-- Whether a character is a hexadecimal digit (`[0-9a-fA-F]`, matching the
case-insensitive regular expression used by the repository). -/
def isHexDigitChar (c : Char) : Bool :=
  ('0' ≤ c && c ≤ '9') || ('a' ≤ c && c ≤ 'f') || ('A' ≤ c && c ≤ 'F')

/-- Byte buffer parsed from a list of hex digit characters, pairing digits
big-endian per byte; a trailing unpaired digit is dropped, as Node's
`Buffer.from(str, 'hex')` truncates an incomplete final pair. -/
def hexCharsToBytes : List Char → List Nat
  | c1 :: c2 :: rest => (hexDigitVal c1 * 16 + hexDigitVal c2) :: hexCharsToBytes rest
  | _ => []

/-- Embeds `Buffer.from(s.slice(2), 'hex')` for a `0x`-prefixed hex string `s`:
the bytes of the digit characters after the two prefix characters.  (String
operations are carried out on the string's character list, which the JS
`slice` on these ASCII strings corresponds to.) -/
def hexToBytes (s : String) : List Nat :=
  hexCharsToBytes (s.data.drop 2)

/-- Modelled from the spec: `dataUtils.isHexString` — a hex string is
`0x`-prefixed with at least one hexadecimal digit after the prefix
(“All hex strings are `0x`-prefixed”).  The function itself lives outside
the provided sources; only its callers are under `src/`. -/
def isHexString (s : String) : Bool :=
  match s.data with
  | '0' :: 'x' :: digits => digits.length != 0 && digits.all isHexDigitChar
  | _ => false

/-- Modelled from the spec: `address.isAddress` — a well-formed address is a
`0x`-prefixed hex string of 20 bytes, i.e. exactly 40 hex digits
(`addressFromPublicKey(publicKey) -> 20-byte address, rendered as
0x-prefixed lowercase hex`).  The function itself lives outside the
provided sources. -/
def isAddress (s : String) : Bool :=
  isHexString s && s.data.length == 42

/-! ## Compact fixed-width hex blob kind
(`encoding/rlp/helpers/compactfixedhexblobkind.ts`) -/

/-- RLP decode-time error condition (`createRlpError`). -/
inductive RlpError where
  | MalformedEncoding
  deriving DecidableEq

/-- Embeds `assertCompactFixedHexBlobBuffer(buffer, context, bytes)`:
rejects a buffer longer than `bytes`, or a non-empty buffer whose first
byte is zero. -/
def assertCompactFixedHexBlobBuffer (buffer : List Nat) (bytes : Nat) :
    Except RlpError Unit :=
  if buffer.length > bytes then .error .MalformedEncoding
  else
    match buffer with
    | b :: _ => if b = 0 then .error .MalformedEncoding else .ok ()
    | [] => .ok ()

/-- Embeds `encodeCompactFixedHexBlob(buffer)`: finds the first non-zero byte and
returns the buffer from that byte on; returns an empty buffer if every byte
is zero. -/
def encodeCompactFixedHexBlob (buffer : List Nat) : List Nat :=
  match buffer.findIdx? (fun byte => byte != 0) with
  | some zeroIndex => buffer.drop zeroIndex
  | none => []

/-- Embeds `decodeBufferToHexWithLeadingZeros(buffer, bytes)`: hex string of the
buffer left-padded with zero bytes up to `bytes` total.  (The JS source
computes `'0'.repeat((bytes - buffer.length) * 2)`, which requires
`buffer.length ≤ bytes`; call sites are guarded by the assertion above, and
truncated `Nat` subtraction models the guarded domain.) -/
def decodeBufferToHexWithLeadingZeros (buffer : List Nat) (bytes : Nat) :
    String :=
  bytesToHex (List.replicate (bytes - buffer.length) 0 ++ buffer)

/-- Modelled from the spec: the compact fixed-width blob kind's decode
method, which “asserts decode-time that the raw buffer length did not exceed
the declared maximum and contained no leading zero byte” and “re-pads with
zero bytes on the left until it reaches the declared total width”.  The kind
class itself lives outside the provided sources; both steps it composes
(`assertCompactFixedHexBlobBuffer`, `decodeBufferToHexWithLeadingZeros`) are
the `src/` helpers above. -/
def compactFixedDecode (buffer : List Nat) (bytes : Nat) :
    Except RlpError String := do
  assertCompactFixedHexBlobBuffer buffer bytes
  pure (decodeBufferToHexWithLeadingZeros buffer bytes)

/-! ## Transaction body data model (`transaction/types.d.ts` shape) -/

/-- One clause of a transaction: `{ to: string | null, value: number | string,
data: string }`.  Only its presence matters to the transaction entity itself;
its field formats are a codec-time concern. -/
structure Clause where
  «to» : Option String
  value : Sum Int String
  data : String
  deriving DecidableEq

/-- The optional reserved field: `{ features?: number, unused?: Buffer[] }`. -/
structure Reserved where
  features : Option Nat := none
  unused : Option (List (List Nat)) := none
  deriving DecidableEq

/-- A transaction body.  Every field a JS caller could omit (`undefined`) is
an `Option`; `dependsOn` is declared `string | null`, hence
`Option (Option String)` with `some none` embedding an explicit `null`. -/
structure TransactionBody where
  chainTag : Option Int := none
  blockRef : Option String := none
  expiration : Option Int := none
  clauses : Option (List Clause) := none
  gasPriceCoef : Option Int := none
  gas : Option Int := none
  dependsOn : Option (Option String) := none
  nonce : Option (Sum Int String) := none
  reserved : Option Reserved := none
  deriving DecidableEq

/-- Errors thrown by the transaction entity (`ERRORS.TRANSACTION.*`,
`ERRORS.ADDRESS.INVALID_ADDRESS`). -/
inductive TxError where
  | InvalidTransactionBody
  | InvalidSignature
  | NotDelegated
  | NotSigned
  | InvalidAddress
  deriving DecidableEq

/-- Modelled from the spec: `SIGNATURE_LENGTH` is 65 bytes
(“65-byte ECDSA signature (r,s,recoveryId)”); the constant lives in
`utils/const`, outside the provided sources. -/
def SIGNATURE_LENGTH : Nat := 65

/-- Modelled from the spec: `BLOCKREF_LENGTH` is 8 bytes (“blockRef present,
hex, exactly 8 bytes after decoding”); the constant lives in `utils/const`,
outside the provided sources. -/
def BLOCKREF_LENGTH : Nat := 8

/-- The injected crypto capability of §6 of the specification: `blake2b256`
hashing, `secp256k1.recover` (digest and signature slice to public key),
and `address.fromPublicKey` (public key to `0x`-prefixed address string).
All theorems hold for an arbitrary instantiation. -/
structure Crypto where
  blake2b256 : List Nat → List Nat
  recover : List Nat → List Nat → List Nat
  fromPublicKey : List Nat → String

/-- The generic RLP profile encoders `UNSIGNED_TRANSACTION_RLP.encodeObject`
and `SIGNED_TRANSACTION_RLP.encodeObject`, applied to a body whose reserved
field has already been replaced by its encoded list (which is exactly how
`_encode` invokes them); the signed profile additionally receives the
signature blob.  The codec lives outside the transaction entity and all
theorems hold for an arbitrary instantiation. -/
structure Codec where
  encodeUnsignedObject : TransactionBody → List (List Nat) → List Nat
  encodeSignedObject : TransactionBody → List (List Nat) → List Nat → List Nat

/-! ## Transaction entity (`transaction/transaction.ts`) -/

/-- An immutable transaction: a body plus an optional signature buffer. -/
structure Transaction where
  body : TransactionBody
  signature : Option (List Nat) := none
  deriving DecidableEq

/-- Embeds `_isDelegated(body)`: `((body.reserved ?? \x7b\x7d).features ?? 0) & 1 === 1`. -/
def _isDelegated (body : TransactionBody) : Bool :=
  let reserved := body.reserved.getD {}
  let features := reserved.features.getD 0
  (features &&& 1) == 1

/-- Embeds `_isSignatureValid(signature)`: the signature length equals
`SIGNATURE_LENGTH * 2` for a delegated body and `SIGNATURE_LENGTH`
otherwise. -/
def _isSignatureValid (body : TransactionBody) (signature : List Nat) : Bool :=
  let expectedSigatureLength :=
    if _isDelegated body then SIGNATURE_LENGTH * 2 else SIGNATURE_LENGTH
  signature.length == expectedSigatureLength

/-- Embeds `_isValidBody(body)`: chainTag present and in `0..255`; blockRef present,
a hex string decoding to exactly `BLOCKREF_LENGTH` bytes; expiration,
clauses, gasPriceCoef, gas, dependsOn and nonce present. -/
def _isValidBody (body : TransactionBody) : Bool :=
  body.chainTag.isSome &&
  (0 ≤ body.chainTag.getD 0) && (body.chainTag.getD 0 ≤ 255) &&
  body.blockRef.isSome &&
  isHexString (body.blockRef.getD "") &&
  (hexToBytes (body.blockRef.getD "")).length == BLOCKREF_LENGTH &&
  body.expiration.isSome &&
  body.clauses.isSome &&
  body.gasPriceCoef.isSome &&
  body.gas.isSome &&
  body.dependsOn.isSome &&
  body.nonce.isSome

/-- The `Transaction` constructor: validates the body (else
`InvalidTransactionBody`); when a signature is supplied, validates its
length against the body's delegation flag (else `InvalidSignature`). -/
def Transaction.construct (body : TransactionBody)
    (signature : Option (List Nat)) : Except TxError Transaction :=
  if _isValidBody body then
    match signature with
    | none => .ok { body := body }
    | some s =>
        if _isSignatureValid body s then .ok { body := body, signature := some s }
        else .error .InvalidSignature
  else .error .InvalidTransactionBody

/-- Embeds `isSigned`: the signature is present. -/
def Transaction.isSigned (tx : Transaction) : Bool :=
  tx.signature.isSome

/-- Embeds `_encodeReservedField()`: the list `[featuresKind.encode(features ?? 0),
...unused]` with trailing empty buffers popped from the end.  The numeric
encoding of `features` is supplied by the features kind. -/
def _encodeReservedField (encodeNumeric : Nat → List Nat)
    (body : TransactionBody) : List (List Nat) :=
  let reserved := body.reserved.getD {}
  let featuresList :=
    encodeNumeric (reserved.features.getD 0) :: reserved.unused.getD []
  (featuresList.reverse.dropWhile (fun b => b.isEmpty)).reverse

/-- Modelled from the spec: `TRANSACTION_FEATURES_KIND.kind` is the compact
numeric blob kind — “same trim-on-encode canonical rule”, i.e. the minimal
big-endian byte representation, empty for zero.  The kind lives outside the
provided sources. -/
def numericKindEncode (n : Nat) : List Nat :=
  if h : n = 0 then [] else numericKindEncode (n / 256) ++ [n % 256]
decreasing_by
  exact Nat.div_lt_self (Nat.pos_of_ne_zero h) (by omega)

/-- Embeds `_encode(isSigned)`: RLP-encode the body with its reserved field replaced
by `_encodeReservedField()`, through the signed profile (with the signature)
or the unsigned profile. -/
def Transaction._encode (C : Codec) (tx : Transaction) (isSigned : Bool) :
    List Nat :=
  if isSigned then
    C.encodeSignedObject tx.body (_encodeReservedField numericKindEncode tx.body)
      (tx.signature.getD [])
  else
    C.encodeUnsignedObject tx.body (_encodeReservedField numericKindEncode tx.body)

/-- Embeds `getSignatureHash(delegateFor?)`: rejects a supplied `delegateFor` that is
not a well-formed address; hashes the unsigned encoding; with `delegateFor`
supplied, re-hashes that digest concatenated with the address's raw bytes. -/
def Transaction.getSignatureHash (K : Crypto) (C : Codec) (tx : Transaction)
    (delegateFor : Option String) : Except TxError (List Nat) :=
  if delegateFor.isSome ∧ ¬ isAddress (delegateFor.getD "") then
    .error .InvalidAddress
  else
    let transactionHash := K.blake2b256 (tx._encode C false)
    match delegateFor with
    | some d => .ok (K.blake2b256 (transactionHash ++ hexToBytes d))
    | none => .ok transactionHash

/-- Embeds `origin`: requires a signature (else `NotSigned`); recovers the public
key from the first 65 signature bytes against `getSignatureHash()` and
derives the address. -/
def Transaction.origin (K : Crypto) (C : Codec) (tx : Transaction) :
    Except TxError String :=
  match tx.signature with
  | none => .error .NotSigned
  | some sig => do
      let signingHash ← tx.getSignatureHash K C none
      pure (K.fromPublicKey (K.recover signingHash (sig.take 65)))

/-- Embeds `delegator`: requires the delegation bit (else `NotDelegated`), then a
signature (else `NotSigned`); recovers the public key from signature bytes
`[65, len)` against `getSignatureHash(origin)` and derives the address. -/
def Transaction.delegator (K : Crypto) (C : Codec) (tx : Transaction) :
    Except TxError String :=
  if ¬ _isDelegated tx.body then .error .NotDelegated
  else
    match tx.signature with
    | none => .error .NotSigned
    | some sig => do
        let originAddress ← tx.origin K C
        let delegatorHash ← tx.getSignatureHash K C (some originAddress)
        pure (K.fromPublicKey (K.recover delegatorHash (sig.drop 65)))

/-- Embeds `id`: requires a signature (else `NotSigned`); the blake2b256 of
`getSignatureHash()` concatenated with the raw bytes of `origin`, rendered
as hex. -/
def Transaction.id (K : Crypto) (C : Codec) (tx : Transaction) :
    Except TxError String :=
  match tx.signature with
  | none => .error .NotSigned
  | some _ => do
      let signingHash ← tx.getSignatureHash K C none
      let originAddress ← tx.origin K C
      pure (bytesToHex (K.blake2b256 (signingHash ++ hexToBytes originAddress)))

/-! ## Concrete sample data used by witnesses and counterexamples -/

/-- A concrete transaction body passing every constructor check, with the
delegation bit clear (`reserved` absent). -/
def sampleBody : TransactionBody :=
  { chainTag := some 74
    blockRef := some "0x00112233445566aa"
    expiration := some 32
    clauses := some []
    gasPriceCoef := some 0
    gas := some 21000
    dependsOn := some none
    nonce := some (Sum.inl 3)
    reserved := none }

/-- Variant of `sampleBody` with the delegation bit set. -/
def sampleDelegatedBody : TransactionBody :=
  { sampleBody with reserved := some { features := some 1 } }

/-- A concrete instantiation of the crypto capability, used only to evaluate
witnesses on concrete inputs. -/
def sampleCrypto : Crypto :=
  { blake2b256 := fun bs => 7 :: bs
    recover := fun digest sig => digest ++ sig
    fromPublicKey := fun key => bytesToHex (key.take 20) }

/-- A concrete instantiation of the RLP profile encoders, used only to
evaluate witnesses on concrete inputs. -/
def sampleCodec : Codec :=
  { encodeUnsignedObject := fun body rsv =>
      (body.chainTag.getD 0).toNat :: rsv.flatten
    encodeSignedObject := fun body rsv sig =>
      (body.chainTag.getD 0).toNat :: rsv.flatten ++ sig }

/-! ## Claim C3 — delegation bit -/

/-- Claim C3: for every transaction body, `isDelegated` is true exactly when
bit 0 of `reserved.features` is set, `features` being taken as 0 when
`reserved` or `reserved.features` is absent: a bit-0 test equivalent to
`features % 2 = 1`. -/
theorem isDelegated_bit_zero (body : TransactionBody) :
    (_isDelegated body = true ↔
      Nat.testBit ((body.reserved.getD {}).features.getD 0) 0 = true) ∧
    (_isDelegated body = true ↔
      ((body.reserved.getD {}).features.getD 0) % 2 = 1) ∧
    (body.reserved = none → _isDelegated body = false) ∧
    ((body.reserved.getD {}).features = none → _isDelegated body = false) := by
  have hmain : ∀ f : Nat, ((f &&& 1) == 1) = true ↔ f % 2 = 1 := by
    intro f
    rw [Nat.and_one_is_mod]
    exact beq_iff_eq
  refine ⟨?_, hmain _, ?_, ?_⟩
  · rw [_isDelegated, Nat.testBit_zero]
    simp only [decide_eq_true_eq]
    exact hmain _
  · intro h
    simp only [_isDelegated, h]
    rfl
  · intro h
    simp only [_isDelegated, h]
    rfl

/-- Witness for C3: a body with `features = 3` is delegated (bit 0 set), and
a body with `reserved` absent is not. -/
theorem isDelegated_bit_zero_witness :
    _isDelegated sampleDelegatedBody = true ∧ _isDelegated sampleBody = false :=
  ⟨((isDelegated_bit_zero sampleDelegatedBody).2.1).mpr (by decide),
   (isDelegated_bit_zero sampleBody).2.2.1 (by decide)⟩

/-! ## Claim C2 — signature length gate -/

/-- Claim C2: for every valid body and supplied signature, construction
succeeds exactly when the signature length is 65 bytes for a non-delegated
body and 130 bytes for a delegated one; any other length fails with
`InvalidSignature`. -/
theorem signature_length_gate (body : TransactionBody) (sig : List Nat)
    (hbody : _isValidBody body = true) :
    (Transaction.construct body (some sig) =
        .ok { body := body, signature := some sig } ↔
      sig.length = (if _isDelegated body then 130 else 65)) ∧
    (sig.length ≠ (if _isDelegated body then 130 else 65) →
      Transaction.construct body (some sig) = .error .InvalidSignature) := by
  have hlen : (if _isDelegated body then SIGNATURE_LENGTH * 2
      else SIGNATURE_LENGTH) = (if _isDelegated body then 130 else 65) := by
    cases _isDelegated body <;> rfl
  constructor
  · rw [Transaction.construct, if_pos hbody]
    simp only [_isSignatureValid, hlen]
    by_cases h : sig.length = (if _isDelegated body then 130 else 65)
    · simp [h]
    · simp [h]
  · intro h
    rw [Transaction.construct, if_pos hbody]
    simp only [_isSignatureValid, hlen]
    simp [h]

/-- Witness for C2: the sample non-delegated body accepts a 65-byte
signature and rejects a 64-byte one; the delegated variant accepts a
130-byte signature. -/
theorem signature_length_gate_witness :
    Transaction.construct sampleBody (some (List.replicate 65 0)) =
      .ok { body := sampleBody, signature := some (List.replicate 65 0) } ∧
    Transaction.construct sampleBody (some (List.replicate 64 0)) =
      .error .InvalidSignature ∧
    Transaction.construct sampleDelegatedBody (some (List.replicate 130 0)) =
      .ok { body := sampleDelegatedBody,
            signature := some (List.replicate 130 0) } :=
  ⟨(signature_length_gate sampleBody (List.replicate 65 0) (by decide)).1.mpr
      (by decide),
   (signature_length_gate sampleBody (List.replicate 64 0) (by decide)).2
      (by decide),
   (signature_length_gate sampleDelegatedBody (List.replicate 130 0)
      (by decide)).1.mpr (by decide)⟩

/-! ## Claim C6 — constructor body validation -/

/-- The conjunction of body checks performed at construction, spelled out
field by field. -/
def BodyChecks (body : TransactionBody) : Prop :=
  (∃ c, body.chainTag = some c ∧ 0 ≤ c ∧ c ≤ 255) ∧
  (∃ br, body.blockRef = some br ∧ isHexString br = true ∧
    (hexToBytes br).length = 8) ∧
  body.expiration.isSome = true ∧
  body.clauses.isSome = true ∧
  body.gasPriceCoef.isSome = true ∧
  body.gas.isSome = true ∧
  body.dependsOn.isSome = true ∧
  body.nonce.isSome = true

/-- `_isValidBody` is exactly the conjunction of the spelled-out checks. -/
theorem isValidBody_iff (body : TransactionBody) :
    _isValidBody body = true ↔ BodyChecks body := by
  cases hc : body.chainTag with
  | none =>
      simp [_isValidBody, BodyChecks, hc]
  | some c =>
      cases hbr : body.blockRef with
      | none => simp [_isValidBody, BodyChecks, hc, hbr]
      | some br =>
          simp [_isValidBody, BodyChecks, hc, hbr, BLOCKREF_LENGTH]
          tauto

/-- Claim C6: the constructor succeeds exactly when chainTag is present and in
`0..255`, blockRef is present, a hex string, and decodes to exactly 8 bytes,
and expiration, clauses, gasPriceCoef, gas, dependsOn and nonce are present;
otherwise it fails with `InvalidTransactionBody`.  No other body check is
performed: the stated conjunction is an if-and-only-if. -/
theorem construct_validates_body (body : TransactionBody) :
    (Transaction.construct body none = .ok { body := body } ↔ BodyChecks body) ∧
    (¬ BodyChecks body →
      Transaction.construct body none = .error .InvalidTransactionBody) := by
  by_cases h : _isValidBody body = true
  · constructor
    · rw [← isValidBody_iff]
      simp [Transaction.construct, h]
    · intro hn
      exact absurd ((isValidBody_iff body).mp h) hn
  · have hfalse : _isValidBody body = false := by
      simpa using h
    constructor
    · rw [← isValidBody_iff]
      simp [Transaction.construct, hfalse, h]
    · intro _
      simp [Transaction.construct, hfalse]

/-- Witness for C6: the sample body satisfies every check and is accepted;
dropping its blockRef violates the checks and construction fails with
`InvalidTransactionBody`. -/
theorem construct_validates_body_witness :
    Transaction.construct sampleBody none = .ok { body := sampleBody } ∧
    Transaction.construct { sampleBody with blockRef := none } none =
      .error .InvalidTransactionBody :=
  ⟨(construct_validates_body sampleBody).1.mpr
      ⟨⟨74, rfl, by decide, by decide⟩,
       ⟨"0x00112233445566aa", rfl, by decide, by decide⟩,
       rfl, rfl, rfl, rfl, rfl, rfl⟩,
   (construct_validates_body { sampleBody with blockRef := none }).2
      (by rintro ⟨-, ⟨br, hbr, -⟩, -⟩; exact Option.noConfusion hbr)⟩

/-! ## Claim C10 — dependsOn presence is a not-undefined test -/

/-- Claim C10: presence is tested as “not `undefined`”: with every other check
passing, a body whose `dependsOn` is an explicit `null` is accepted, a
non-null `dependsOn` undergoes no format validation (any string value leaves
validity unchanged), and an omitted `dependsOn` fails with
`InvalidTransactionBody`. -/
theorem dependsOn_null_accepted (body : TransactionBody) (v : String) :
    (_isValidBody { body with dependsOn := some none } = true →
      Transaction.construct { body with dependsOn := some none } none =
        .ok { body := { body with dependsOn := some none } }) ∧
    (_isValidBody { body with dependsOn := some (some v) } =
      _isValidBody { body with dependsOn := some none }) ∧
    (Transaction.construct { body with dependsOn := none } none =
      .error .InvalidTransactionBody) := by
  refine ⟨?_, ?_, ?_⟩
  · intro h
    simp [Transaction.construct, h]
  · simp [_isValidBody]
  · have hinvalid : _isValidBody { body with dependsOn := none } = false := by
      simp [_isValidBody]
    simp [Transaction.construct, hinvalid]

/-- Witness for C10: the sample body (whose `dependsOn` is an explicit
`null`) is accepted, an arbitrary non-hex `dependsOn` string changes
nothing, and omitting `dependsOn` is rejected; evaluated concretely. -/
theorem dependsOn_null_accepted_witness :
    (Transaction.construct { sampleBody with dependsOn := some none } none =
      .ok { body := { sampleBody with dependsOn := some none } }) ∧
    (_isValidBody { sampleBody with dependsOn := some (some "not-even-hex") } =
      _isValidBody { sampleBody with dependsOn := some none }) ∧
    (Transaction.construct { sampleBody with dependsOn := none } none =
      .error .InvalidTransactionBody) :=
  ⟨(dependsOn_null_accepted sampleBody "not-even-hex").1 (by decide),
   (dependsOn_null_accepted sampleBody "not-even-hex").2.1,
   (dependsOn_null_accepted sampleBody "not-even-hex").2.2⟩

/-! ## Claim C1 — signing-hash delegation identity -/

/-- Claim C1: `getSignatureHash()` with no argument is the hash of the unsigned
encoding; with a `delegateFor` that is not a well-formed address it fails
with `InvalidAddress`; with a valid `delegateFor` it is the hash of
`getSignatureHash()` concatenated with the address's raw bytes. -/
theorem getSignatureHash_delegation (K : Crypto) (C : Codec)
    (tx : Transaction) (d : String) :
    tx.getSignatureHash K C none = .ok (K.blake2b256 (tx._encode C false)) ∧
    (isAddress d = false →
      tx.getSignatureHash K C (some d) = .error .InvalidAddress) ∧
    (isAddress d = true →
      tx.getSignatureHash K C (some d) =
        .ok (K.blake2b256
          (K.blake2b256 (tx._encode C false) ++ hexToBytes d))) := by
  refine ⟨?_, ?_, ?_⟩
  · simp [Transaction.getSignatureHash]
  · intro h
    simp [Transaction.getSignatureHash, h]
  · intro h
    simp [Transaction.getSignatureHash, h]

/-- Witness for C1: on the sample unsigned transaction, a malformed address
is rejected and a well-formed address produces the re-hashed digest. -/
theorem getSignatureHash_delegation_witness :
    Transaction.getSignatureHash sampleCrypto sampleCodec
        { body := sampleBody } (some "0x123") = .error .InvalidAddress ∧
    Transaction.getSignatureHash sampleCrypto sampleCodec
        { body := sampleBody }
        (some "0xaabbccddeeff00112233445566778899aabbccdd") =
      .ok (sampleCrypto.blake2b256
        (sampleCrypto.blake2b256
          (Transaction._encode sampleCodec { body := sampleBody } false) ++
         hexToBytes "0xaabbccddeeff00112233445566778899aabbccdd")) :=
  ⟨(getSignatureHash_delegation sampleCrypto sampleCodec
      { body := sampleBody } "0x123").2.1 (by decide),
   (getSignatureHash_delegation sampleCrypto sampleCodec
      { body := sampleBody }
      "0xaabbccddeeff00112233445566778899aabbccdd").2.2 (by decide)⟩

/-! ## Claim C7 — access failures on an unsigned transaction -/

/-- Counterexample to C7 as stated: on a concrete unsigned transaction whose
body is not delegated, `delegator` fails with `NotDelegated`, which is not
the claimed `NotSigned`. -/
theorem delegator_unsigned_undelegated_cex :
    Transaction.delegator sampleCrypto sampleCodec { body := sampleBody } =
      .error .NotDelegated ∧
    (Except.error TxError.NotDelegated : Except TxError String) ≠
      .error .NotSigned := by
  exact ⟨rfl, fun hcontra => TxError.noConfusion (Except.error.inj hcontra)⟩

/-- Claim C7, amended: on an unsigned transaction, `origin` and `id` fail with
`NotSigned`; `delegator` fails with `NotSigned` when the body's delegation
bit is set, but with `NotDelegated` when it is not (the delegation check
precedes the signature check). -/
theorem unsigned_access_failures (K : Crypto) (C : Codec) (tx : Transaction)
    (h : tx.signature = none) :
    Transaction.origin K C tx = .error .NotSigned ∧
    Transaction.id K C tx = .error .NotSigned ∧
    (_isDelegated tx.body = true →
      Transaction.delegator K C tx = .error .NotSigned) ∧
    (_isDelegated tx.body = false →
      Transaction.delegator K C tx = .error .NotDelegated) := by
  refine ⟨?_, ?_, ?_, ?_⟩
  · simp [Transaction.origin, h]
  · simp [Transaction.id, h]
  · intro hd
    simp [Transaction.delegator, hd, h]
  · intro hd
    simp [Transaction.delegator, hd]

/-- Witness for C7 (amended): the unsigned delegated sample transaction
fails with `NotSigned` on all three accessors; the unsigned non-delegated
one fails with `NotDelegated` on `delegator`. -/
theorem unsigned_access_failures_witness :
    Transaction.origin sampleCrypto sampleCodec
        { body := sampleDelegatedBody } = .error .NotSigned ∧
    Transaction.id sampleCrypto sampleCodec
        { body := sampleDelegatedBody } = .error .NotSigned ∧
    Transaction.delegator sampleCrypto sampleCodec
        { body := sampleDelegatedBody } = .error .NotSigned ∧
    Transaction.delegator sampleCrypto sampleCodec
        { body := sampleBody } = .error .NotDelegated := by
  obtain ⟨h1, h2, h3, -⟩ :=
    unsigned_access_failures sampleCrypto sampleCodec
      { body := sampleDelegatedBody } rfl
  obtain ⟨-, -, -, h4⟩ :=
    unsigned_access_failures sampleCrypto sampleCodec
      { body := sampleBody } rfl
  exact ⟨h1, h2, h3 (by decide), h4 (by decide)⟩

/-! ## Claim C8 — transaction id -/

/-- Reduction of the `Except` monadic bind on a success value. -/
theorem except_ok_bind {ε α β : Type} (a : α) (f : α → Except ε β) :
    ((Except.ok a : Except ε α) >>= f) = f a := rfl

/-- Propagation of the `Except` monadic bind on an error value. -/
theorem except_error_bind {ε α β : Type} (e : ε) (f : α → Except ε β) :
    ((Except.error e : Except ε α) >>= f) = Except.error e := rfl

/-- Claim C8: on a signed transaction, `origin` succeeds and `id` is the hash
of `getSignatureHash()` concatenated with the raw bytes of `origin`
(rendered as hex); on an unsigned transaction `id` fails with `NotSigned`. -/
theorem id_hash_of_origin (K : Crypto) (C : Codec) (tx : Transaction) :
    (tx.signature = none → Transaction.id K C tx = .error .NotSigned) ∧
    (∀ sig, tx.signature = some sig →
      Transaction.origin K C tx =
        .ok (K.fromPublicKey (K.recover
          (K.blake2b256 (tx._encode C false)) (sig.take 65)))) ∧
    (∀ sig o, tx.signature = some sig → Transaction.origin K C tx = .ok o →
      Transaction.id K C tx =
        .ok (bytesToHex (K.blake2b256
          (K.blake2b256 (tx._encode C false) ++ hexToBytes o)))) := by
  have hgsh : tx.getSignatureHash K C none =
      .ok (K.blake2b256 (tx._encode C false)) := by
    simp [Transaction.getSignatureHash]
  refine ⟨?_, ?_, ?_⟩
  · intro h
    simp [Transaction.id, h]
  · intro sig h
    simp [Transaction.origin, h, hgsh, except_ok_bind]
  · intro sig o h ho
    simp [Transaction.id, h, hgsh, ho, except_ok_bind]

/-- A concrete signed (non-delegated) transaction used by witnesses. -/
def sampleSignedTx : Transaction :=
  { body := sampleBody, signature := some (List.replicate 65 2) }

/-- Witness for C8: on the concrete signed sample transaction, `id` is the
hash of the signing hash concatenated with the origin's raw bytes. -/
theorem id_hash_of_origin_witness :
    Transaction.id sampleCrypto sampleCodec sampleSignedTx =
      .ok (bytesToHex (sampleCrypto.blake2b256
        (sampleCrypto.blake2b256 (sampleSignedTx._encode sampleCodec false) ++
         hexToBytes (sampleCrypto.fromPublicKey (sampleCrypto.recover
           (sampleCrypto.blake2b256 (sampleSignedTx._encode sampleCodec false))
           ((List.replicate 65 2).take 65)))))) :=
  (id_hash_of_origin sampleCrypto sampleCodec sampleSignedTx).2.2
    (List.replicate 65 2)
    (sampleCrypto.fromPublicKey (sampleCrypto.recover
      (sampleCrypto.blake2b256 (sampleSignedTx._encode sampleCodec false))
      ((List.replicate 65 2).take 65)))
    rfl
    ((id_hash_of_origin sampleCrypto sampleCodec sampleSignedTx).2.1
      (List.replicate 65 2) rfl)

/-! ## Claim C9 — the compact encoding is canonical -/

/-- The find-first-nonzero-and-drop encoding is the same as dropping the
leading zero bytes. -/
theorem encodeCompactFixedHexBlob_eq_dropWhile (l : List Nat) :
    encodeCompactFixedHexBlob l = l.dropWhile (fun b => b == 0) := by
  induction l with
  | nil => rfl
  | cons x xs ih =>
      unfold encodeCompactFixedHexBlob
      rw [List.findIdx?_cons]
      by_cases hx : x = 0
      · subst hx
        rw [if_neg (by simp), List.findIdx?_succ,
          List.dropWhile_cons_of_pos (by simp)]
        unfold encodeCompactFixedHexBlob at ih
        cases hfind : xs.findIdx? (fun byte => byte != 0) with
        | none =>
            rw [hfind] at ih
            simpa using ih
        | some i =>
            rw [hfind] at ih
            simpa [List.drop_succ_cons] using ih
      · rw [if_pos (by simpa using hx)]
        show List.drop 0 (x :: xs) = _
        rw [List.drop_zero, List.dropWhile_cons_of_neg (by simp [hx])]

/-- Claim C9: `encodeCompactFixedHexBlob` output is canonical: it is the input
with its leading zero bytes dropped (hence empty or starting with a nonzero
byte, and no longer than the input), and for an input of length at most `N`
the output passes `assertCompactFixedHexBlobBuffer` for width `N`. -/
theorem encode_output_canonical (buffer : List Nat) (N : Nat) :
    encodeCompactFixedHexBlob buffer = buffer.dropWhile (fun b => b == 0) ∧
    (∀ b ∈ (encodeCompactFixedHexBlob buffer).head?, b ≠ 0) ∧
    (encodeCompactFixedHexBlob buffer).length ≤ buffer.length ∧
    (∃ k, buffer = List.replicate k 0 ++ encodeCompactFixedHexBlob buffer) ∧
    (buffer.length ≤ N →
      assertCompactFixedHexBlobBuffer (encodeCompactFixedHexBlob buffer) N =
        .ok ()) := by
  have hdw := encodeCompactFixedHexBlob_eq_dropWhile buffer
  have hhead : ∀ b ∈ (encodeCompactFixedHexBlob buffer).head?, b ≠ 0 := by
    intro b hb
    rw [hdw] at hb
    have hnot := List.head?_dropWhile_not (fun b => b == 0) buffer
    cases hh : (buffer.dropWhile (fun b => b == 0)).head? with
    | none => rw [hh] at hb; exact absurd hb (by simp)
    | some c =>
        rw [hh] at hb hnot
        simp only [Option.mem_def, Option.some.injEq] at hb
        subst hb
        simpa using hnot
  have hlen : (encodeCompactFixedHexBlob buffer).length ≤ buffer.length := by
    rw [hdw]
    exact (List.dropWhile_sublist _).length_le
  refine ⟨hdw, hhead, hlen, ?_, ?_⟩
  · refine ⟨(buffer.takeWhile (fun b => b == 0)).length, ?_⟩
    have hsplit := List.takeWhile_append_dropWhile (fun b => b == 0) buffer
    have hrep : buffer.takeWhile (fun b => b == 0) =
        List.replicate (buffer.takeWhile (fun b => b == 0)).length 0 := by
      apply List.eq_replicate_of_mem
      intro b hb
      simpa using List.mem_takeWhile_imp hb
    calc buffer = buffer.takeWhile (fun b => b == 0) ++
          buffer.dropWhile (fun b => b == 0) := hsplit.symm
      _ = List.replicate (buffer.takeWhile (fun b => b == 0)).length 0 ++
          encodeCompactFixedHexBlob buffer := by rw [← hrep, ← hdw]
  · intro hN
    unfold assertCompactFixedHexBlobBuffer
    rw [if_neg (by omega)]
    cases henc : encodeCompactFixedHexBlob buffer with
    | nil => rfl
    | cons b rest =>
        have hb : b ≠ 0 := by
          apply hhead
          rw [henc]
          rfl
        simp [hb]

/-- Witness for C9: evaluated on the concrete buffer `[0, 0, 5, 0]` with
declared width 8. -/
theorem encode_output_canonical_witness :
    encodeCompactFixedHexBlob [0, 0, 5, 0] =
      [0, 0, 5, 0].dropWhile (fun b => b == 0) ∧
    assertCompactFixedHexBlobBuffer (encodeCompactFixedHexBlob [0, 0, 5, 0]) 8 =
      .ok () :=
  ⟨(encode_output_canonical [0, 0, 5, 0] 8).1,
   (encode_output_canonical [0, 0, 5, 0] 8).2.2.2.2 (by decide)⟩

/-! ## Claim C4 — compact fixed-width blob round trip -/

/-- The compact encoding leaves a buffer with no leading zero byte
unchanged. -/
theorem encodeCompactFixedHexBlob_no_leading_zero (blob : List Nat)
    (hlead : ∀ b ∈ blob.head?, b ≠ 0) :
    encodeCompactFixedHexBlob blob = blob := by
  rw [encodeCompactFixedHexBlob_eq_dropWhile]
  cases blob with
  | nil => rfl
  | cons b rest =>
      have hb : b ≠ 0 := hlead b rfl
      rw [List.dropWhile_cons_of_neg (by simp [hb])]

/-- Counterexample to C4 as stated: for the one-byte buffer `[1]` and
declared width 2, decoding the encoding yields the hex of the left-padded
buffer `[0, 1]`, not of `[1]` itself. -/
theorem compact_blob_roundtrip_cex :
    encodeCompactFixedHexBlob [1] = [1] ∧
    compactFixedDecode (encodeCompactFixedHexBlob [1]) 2 =
      .ok (bytesToHex [0, 1]) ∧
    bytesToHex [0, 1] ≠ bytesToHex [1] := by
  refine ⟨rfl, rfl, ?_⟩
  decide

/-- Claim C4, amended: for every buffer of length `0..N` with no leading zero
byte, decoding the encoding yields the buffer left-padded with zero bytes to
width `N` (so the buffer itself exactly when its length is `N`); and decode
rejects with `MalformedEncoding` every buffer whose length exceeds `N` or
whose first byte is zero. -/
theorem compact_blob_roundtrip (blob : List Nat) (N : Nat)
    (hlen : blob.length ≤ N) (hlead : ∀ b ∈ blob.head?, b ≠ 0) :
    compactFixedDecode (encodeCompactFixedHexBlob blob) N =
      .ok (bytesToHex (List.replicate (N - blob.length) 0 ++ blob)) ∧
    (blob.length = N →
      compactFixedDecode (encodeCompactFixedHexBlob blob) N =
        .ok (bytesToHex blob)) ∧
    (∀ buf : List Nat, N < buf.length ∨ buf.head? = some 0 →
      compactFixedDecode buf N = .error .MalformedEncoding) := by
  have henc := encodeCompactFixedHexBlob_no_leading_zero blob hlead
  have hok : compactFixedDecode (encodeCompactFixedHexBlob blob) N =
      .ok (bytesToHex (List.replicate (N - blob.length) 0 ++ blob)) := by
    rw [henc]
    unfold compactFixedDecode assertCompactFixedHexBlobBuffer
    rw [if_neg (by omega)]
    cases hb : blob with
    | nil => rfl
    | cons b rest =>
        have hbne : b ≠ 0 := by
          apply hlead
          rw [hb]
          rfl
        simp only [hbne, if_false, if_neg, except_ok_bind, reduceCtorEq]
        rfl
  refine ⟨hok, ?_, ?_⟩
  · intro hNlen
    rw [hok, hNlen]
    simp
  · intro buf hbad
    unfold compactFixedDecode assertCompactFixedHexBlobBuffer
    rcases hbad with hlong | hzero
    · rw [if_pos (by omega)]
      rfl
    · by_cases hlong2 : buf.length > N
      · rw [if_pos hlong2]
        rfl
      · rw [if_neg hlong2]
        cases buf with
        | nil => exact absurd hzero (by simp)
        | cons b rest =>
            have hb0 : b = 0 := by
              simpa using hzero
            subst hb0
            simp only [if_pos, except_error_bind]

/-- Witness for C4 (amended): evaluated at the buffer `[1]` with width 2,
at the full-width buffer `[1, 2]`, and at the rejected buffers `[1, 2, 3]`
(too long) and `[0, 1]` (leading zero). -/
theorem compact_blob_roundtrip_witness :
    compactFixedDecode (encodeCompactFixedHexBlob [1]) 2 =
      .ok (bytesToHex [0, 1]) ∧
    compactFixedDecode (encodeCompactFixedHexBlob [1, 2]) 2 =
      .ok (bytesToHex [1, 2]) ∧
    compactFixedDecode [1, 2, 3] 2 = .error .MalformedEncoding ∧
    compactFixedDecode [0, 1] 2 = .error .MalformedEncoding :=
  ⟨(compact_blob_roundtrip [1] 2 (by decide) (by decide)).1,
   (compact_blob_roundtrip [1, 2] 2 (by decide) (by decide)).2.1 (by decide),
   (compact_blob_roundtrip [] 2 (by decide) (by decide)).2.2 [1, 2, 3]
      (Or.inl (by decide)),
   (compact_blob_roundtrip [] 2 (by decide) (by decide)).2.2 [0, 1]
      (Or.inr (by decide))⟩

/-! ## Claim C5 — reserved field encoding -/

/-- The trailing trim (the `while … pop()` loop of `_encodeReservedField`,
i.e. reversing, dropping the leading empty entries, and reversing back)
returns a prefix of the list whose dropped complement is all-empty, and
whose own last entry, if any, is non-empty. -/
theorem trim_trailing_spec (L : List (List Nat)) :
    (∃ k, (L.reverse.dropWhile (fun b => b.isEmpty)).reverse = L.take k ∧
      ∀ x ∈ L.drop k, x = []) ∧
    (∀ x ∈ ((L.reverse.dropWhile (fun b => b.isEmpty)).reverse).getLast?,
      x ≠ []) := by
  set d := L.reverse.dropWhile (fun b => b.isEmpty) with hd
  set t := L.reverse.takeWhile (fun b => b.isEmpty) with ht
  have hsplit : t ++ d = L.reverse := List.takeWhile_append_dropWhile _ _
  have hL : L = d.reverse ++ t.reverse := by
    conv_lhs => rw [← List.reverse_reverse L, ← hsplit]
    rw [List.reverse_append]
  constructor
  · refine ⟨d.reverse.length, ?_, ?_⟩
    · conv_rhs => rw [hL]
      rw [List.take_left]
    · intro x hx
      rw [hL, List.drop_left] at hx
      have hmem : x ∈ t := List.mem_reverse.mp hx
      rw [ht] at hmem
      have himp := List.mem_takeWhile_imp hmem
      simpa [List.isEmpty_iff] using himp
  · intro x hx
    rw [List.getLast?_reverse] at hx
    have hnot := List.head?_dropWhile_not (fun (b : List Nat) => b.isEmpty)
      L.reverse
    rw [← hd] at hnot
    cases hh : d.head? with
    | none =>
        rw [hh] at hx
        exact absurd hx (by simp)
    | some c =>
        rw [hh] at hx hnot
        simp only [Option.mem_def, Option.some.injEq] at hx
        subst hx
        simpa [List.isEmpty_iff] using hnot

/-- The compact numeric encoding of zero is the empty buffer. -/
theorem numericKindEncode_zero : numericKindEncode 0 = [] := by
  unfold numericKindEncode
  simp

/-- Claim C5: the encoded reserved field is the list
`[encode(features), ...unused]` (features taken as 0 and unused as empty
when absent) with trailing empty blobs removed from the end and only from
the end: the result is a prefix of that list, everything dropped is empty,
and a non-empty entry shields any empty entries before it (the result never
ends in an empty entry).  An absent reserved field, or features 0 with
unused empty, encodes to the empty list. -/
theorem reserved_field_trim (body : TransactionBody) :
    (∃ k, _encodeReservedField numericKindEncode body =
      (numericKindEncode ((body.reserved.getD {}).features.getD 0) ::
        (body.reserved.getD {}).unused.getD []).take k ∧
      ∀ x ∈ (numericKindEncode ((body.reserved.getD {}).features.getD 0) ::
        (body.reserved.getD {}).unused.getD []).drop k, x = []) ∧
    (∀ x ∈ (_encodeReservedField numericKindEncode body).getLast?, x ≠ []) ∧
    (body.reserved = none → _encodeReservedField numericKindEncode body = []) ∧
    ((body.reserved.getD {}).features.getD 0 = 0 ∧
      (body.reserved.getD {}).unused.getD [] = [] →
      _encodeReservedField numericKindEncode body = []) := by
  have htrim := trim_trailing_spec
    (numericKindEncode ((body.reserved.getD {}).features.getD 0) ::
      (body.reserved.getD {}).unused.getD [])
  refine ⟨htrim.1, htrim.2, ?_, ?_⟩
  · intro h
    simp [_encodeReservedField, h, numericKindEncode_zero]
  · rintro ⟨hf, hu⟩
    simp [_encodeReservedField, hf, hu, numericKindEncode_zero]

/-- Witness for C5: a body with no reserved field, and one with
`features = 0` and `unused = []`, both encode the reserved slot to the empty
list; evaluated concretely. -/
theorem reserved_field_trim_witness :
    _encodeReservedField numericKindEncode sampleBody = [] ∧
    _encodeReservedField numericKindEncode
      { sampleBody with
        reserved := some { features := some 0, unused := some [] } } = [] :=
  ⟨(reserved_field_trim sampleBody).2.2.1 rfl,
   (reserved_field_trim
      { sampleBody with
        reserved := some { features := some 0, unused := some [] } }).2.2.2
     ⟨rfl, rfl⟩⟩

end VechainSdk
